import Mathlib

/-!
Shallow embedding of the poolauto reservation engine (`src/server.js`, together
with the ownership-checked cancellation and JWT identity extraction of the
auth-enabled revision of the same server).  Instants are UTC milliseconds since
the Unix epoch, modelled as `Nat`; a calendar-date token `YYYY-MM-DD` is
modelled as its UTC day index.  The spec's `maintenance`/`available` status
values correspond to the code's `"garage"`/`"ok"` strings.
-/

namespace Poolauto

/-- A UTC instant, in milliseconds since the Unix epoch. -/
abbrev Instant := Nat

/-- Milliseconds in one UTC day. -/
def msPerDay : Nat := 86400000

/-- Helper `isOverlap` from server.js: `startA < endB && startB < endA`. -/
def isOverlap (startA endA startB endB : Instant) : Bool :=
  startA < endB && startB < endA

/-- Helper `dayStartIso` from server.js: day `d` at `T00:00:00.000Z`. -/
def dayStartIso (d : Nat) : Instant := d * msPerDay

/-- Helper `dayEndIso` from server.js: day `d` at `T23:59:59.999Z`. -/
def dayEndIso (d : Nat) : Instant := d * msPerDay + 86399999

/-- Helper `isoDay` from server.js: `toISOString().slice(0, 10)`, the UTC day index
of an instant. -/
def isoDay (t : Instant) : Nat := t / msPerDay

/-- Argument shape of `toDayStartIso` and `toDayEndIso` in server.js: either a
plain `YYYY-MM-DD` date token or a full ISO timestamp (the code distinguishes
the two by `includes("T")`). -/
inductive DateInput where
  | day (d : Nat)
  | instant (t : Instant)
deriving DecidableEq

/-- Helper `toDayStartIso` from server.js. -/
def toDayStartIso : DateInput → Instant
  | .day d => dayStartIso d
  | .instant t => t

/-- Helper `toDayEndIso` from server.js. -/
def toDayEndIso : DateInput → Instant
  | .day d => dayEndIso d
  | .instant t => t

/-- Verified caller identity decoded from a JWT by `getUserFromToken`. -/
structure Identity where
  userId : Nat
  orgId : Nat
  role : String
deriving DecidableEq

/-- Row of the `cars` table (pool resource). -/
structure Car where
  id : Nat
  name : String
  license : String
  status : String
  unavailableFrom : Option Instant
  unavailableUntil : Option Instant
deriving DecidableEq

/-- Row of the `extra_cars` table (ephemeral resource, valid for one
organization and one calendar day). -/
structure ExtraCar where
  id : Nat
  orgId : Nat
  license : String
  name : String
  date : Nat
deriving DecidableEq

/-- Row of the `meeting_rooms` table. -/
structure MeetingRoom where
  id : Nat
  orgId : Nat
  name : String
  capacity : Nat
deriving DecidableEq

/-- Row of the `bookings` table.  The source column `end` is a Lean keyword
and is embedded as `endT`. -/
structure Booking where
  id : Nat
  orgId : Nat
  carId : Option Nat
  extraCarId : Option Nat
  userId : Option Nat
  userName : String
  start : Instant
  endT : Instant
  note : String
deriving DecidableEq

/-- Row of the `meeting_bookings` table. -/
structure MeetingBooking where
  id : Nat
  roomId : Nat
  orgId : Nat
  sourceOrgId : Nat
  userId : Option Nat
  title : String
  organizer : String
  startTime : Instant
  endTime : Instant
deriving DecidableEq

/-- The persistent store (the Supabase tables the engine touches). -/
structure State where
  cars : List Car
  extraCars : List ExtraCar
  rooms : List MeetingRoom
  bookings : List Booking
  meetingBookings : List MeetingBooking
  nextBookingId : Nat
  nextMeetingBookingId : Nat
deriving DecidableEq

/-- Domain errors surfaced by the route handlers (HTTP 400/404/409/403). -/
inductive ApiError where
  | validation (msg : String)
  | notFound (msg : String)
  | conflict (msg : String)
  | forbidden (msg : String)
deriving DecidableEq

/-- JS `car.status || "ok"`: a missing status defaults to `"ok"`. -/
def effStatus (c : Car) : String := if c.status = "" then "ok" else c.status

/-- Garage/maintenance block for a requested window, as computed identically in
`POST /api/bookings` and `GET /api/cars/availability`: a `garage` car with both
blackout bounds present blocks exactly the requests overlapping the window;
with an incomplete or missing window it blocks every request. -/
def carBlocked (c : Car) (startT endT : Instant) : Bool :=
  effStatus c = "garage" &&
    (match c.unavailableFrom, c.unavailableUntil with
     | some f, some u => isOverlap startT endT f u
     | _, _ => true)

/-- The Supabase overlap query for a pool car:
`eq(org_id), eq(car_id), lt(start, end), gt(end, start)`. -/
def poolOverlaps (bookings : List Booking) (orgId carId : Nat)
    (startT endT : Instant) : List Booking :=
  bookings.filter (fun b =>
    b.orgId = orgId && b.carId = some carId && b.start < endT && b.endT > startT)

/-- The Supabase overlap query for an extra (ephemeral) car. -/
def extraOverlaps (bookings : List Booking) (orgId extraCarId : Nat)
    (startT endT : Instant) : List Booking :=
  bookings.filter (fun b =>
    b.orgId = orgId && b.extraCarId = some extraCarId && b.start < endT && b.endT > startT)

/-- The Supabase overlap query for a meeting room, scoped by room id alone. -/
def meetingOverlaps (ms : List MeetingBooking) (roomId : Nat)
    (startT endT : Instant) : List MeetingBooking :=
  ms.filter (fun m => m.roomId = roomId && m.startTime < endT && m.endTime > startT)

/-- Insert of one booking row (id assigned by the store). -/
def insertBooking (s : State) (b : Booking) : State :=
  { s with bookings := s.bookings ++ [b], nextBookingId := s.nextBookingId + 1 }

/-- Insert of one meeting-booking row. -/
def insertMeetingBooking (s : State) (m : MeetingBooking) : State :=
  { s with meetingBookings := s.meetingBookings ++ [m],
           nextMeetingBookingId := s.nextMeetingBookingId + 1 }

/-- Route `POST /api/bookings` (the engine's `createBooking`): range check,
exactly-one-of resource selector, pool existence and garage check or ephemeral
day-scoped resolution, per-organization overlap check, insert.  The caller
identity, when present, supplies the owning `user_id`. -/
def createBooking (s : State) (orgId : Nat) (userName : String)
    (startT endT : Instant) (note : String)
    (carId extraCarId : Option Nat) (tokenUser : Option Identity) :
    Except ApiError (Booking × State) :=
  let userId := tokenUser.map Identity.userId
  if endT ≤ startT then
    .error (.validation "Eindtijd moet na starttijd liggen")
  else
    match carId, extraCarId with
    | none, none => .error (.validation "carId of extraCarId is verplicht")
    | some _, some _ =>
      .error (.validation "Gebruik of carId of extraCarId (niet allebei)")
    | some cid, none =>
      match s.cars.find? (fun c => c.id = cid) with
      | none => .error (.validation "Onbekende auto.")
      | some car =>
        if carBlocked car startT endT then
          .error (.conflict "Deze auto staat in deze periode op garage / niet beschikbaar.")
        else if !(poolOverlaps s.bookings orgId cid startT endT).isEmpty then
          .error (.conflict "Deze auto is in deze periode al geboekt.")
        else
          let b : Booking :=
            ⟨s.nextBookingId, orgId, some cid, none, userId, userName, startT, endT, note⟩
          .ok (b, insertBooking s b)
    | none, some eid =>
      match s.extraCars.find? (fun e =>
          e.id = eid && e.orgId = orgId && e.date = isoDay startT) with
      | none => .error (.validation "Extra auto niet gevonden (of niet beschikbaar vandaag).")
      | some _ =>
        if !(extraOverlaps s.bookings orgId eid startT endT).isEmpty then
          .error (.conflict "Deze extra auto is in deze periode al geboekt.")
        else
          let b : Booking :=
            ⟨s.nextBookingId, orgId, none, some eid, userId, userName, startT, endT, note⟩
          .ok (b, insertBooking s b)

/-- Route `DELETE /api/bookings/:id` with the ownership check of the auth-enabled
revision: fetch the row, then (only when a verified identity is present) the
owner/admin gating, then delete. -/
def cancelBooking (s : State) (id : Nat) (tokenUser : Option Identity) :
    Except ApiError (Booking × State) :=
  match s.bookings.find? (fun b => b.id = id) with
  | none => .error (.notFound "Reservering niet gevonden")
  | some booking =>
    match tokenUser with
    | some u =>
      if !decide (booking.userId = some u.userId) && !decide (u.role = "admin") then
        .error (.forbidden "Je kunt alleen je eigen reserveringen verwijderen")
      else if decide (booking.userId = none) && !decide (u.role = "admin") then
        .error (.forbidden "Oude reserveringen kunnen alleen door admins verwijderd worden")
      else
        .ok (booking, { s with bookings := s.bookings.filter (fun b => b.id ≠ id) })
    | none =>
      .ok (booking, { s with bookings := s.bookings.filter (fun b => b.id ≠ id) })

/-- Shape of the `Authorization` request header as `getUserFromToken` sees it:
absent, not a bearer token, a bearer token failing `jwt.verify` (malformed or
bad signature), an expired bearer token, or a token verifying to an identity. -/
inductive AuthHeader where
  | missing
  | notBearer
  | invalidToken
  | expiredToken
  | verified (u : Identity)
deriving DecidableEq

/-- Helper `getUserFromToken` from server.js: `null` unless a bearer token verifies. -/
def getUserFromToken : AuthHeader → Option Identity
  | .verified u => some u
  | _ => none

/-- The delete route as invoked over HTTP: identity extraction followed by
`cancelBooking`. -/
def cancelBookingRequest (s : State) (id : Nat) (h : AuthHeader) :
    Except ApiError (Booking × State) :=
  cancelBooking s id (getUserFromToken h)

/-- Attribution of a meeting booking to the caller's real organization:
`tokenUser ? tokenUser.orgId : orgId`. -/
def sourceOrgOf (tokenUser : Option Identity) (orgId : Nat) : Nat :=
  match tokenUser with
  | some u => u.orgId
  | none => orgId

/-- Route `POST /api/meeting-bookings`: range check, room lookup scoped to the
requested organization, room-wide overlap check, insert with attribution to the
caller's real organization. -/
def createMeetingBooking (s : State) (roomId orgId : Nat) (title organizer : String)
    (startTime endTime : Instant) (tokenUser : Option Identity) :
    Except ApiError (MeetingBooking × State) :=
  if endTime ≤ startTime then
    .error (.validation "Eindtijd moet na starttijd liggen")
  else
    match s.rooms.find? (fun r => r.id = roomId && r.orgId = orgId) with
    | none => .error (.validation "Onbekende vergaderruimte.")
    | some _ =>
      if !(meetingOverlaps s.meetingBookings roomId startTime endTime).isEmpty then
        .error (.conflict "Deze vergaderruimte is in deze periode al geboekt.")
      else
        let m : MeetingBooking :=
          ⟨s.nextMeetingBookingId, roomId, orgId, sourceOrgOf tokenUser orgId,
            tokenUser.map Identity.userId, title, organizer, startTime, endTime⟩
        .ok (m, insertMeetingBooking s m)

/-- Route `DELETE /api/meeting-bookings/:id`, same ownership gating as car bookings. -/
def cancelMeetingBooking (s : State) (id : Nat) (tokenUser : Option Identity) :
    Except ApiError (MeetingBooking × State) :=
  match s.meetingBookings.find? (fun m => m.id = id) with
  | none => .error (.notFound "Vergaderreservering niet gevonden")
  | some booking =>
    match tokenUser with
    | some u =>
      if !decide (booking.userId = some u.userId) && !decide (u.role = "admin") then
        .error (.forbidden "Je kunt alleen je eigen reserveringen verwijderen")
      else if decide (booking.userId = none) && !decide (u.role = "admin") then
        .error (.forbidden "Oude reserveringen kunnen alleen door admins verwijderd worden")
      else
        .ok (booking, { s with meetingBookings :=
          s.meetingBookings.filter (fun m => m.id ≠ id) })
    | none =>
      .ok (booking, { s with meetingBookings :=
        s.meetingBookings.filter (fun m => m.id ≠ id) })

/-- Availability verdict for one resource, as serialized by
`GET /api/cars/availability`. -/
structure Verdict where
  vtype : String
  id : Nat
  available : Bool
deriving DecidableEq

/-- Verdict for one pool car in `GET /api/cars/availability`: available iff
neither garage-blocked nor conflicting with a booking of this organization. -/
def poolVerdict (s : State) (orgId : Nat) (startT endT : Instant) (car : Car) : Verdict :=
  let garage := carBlocked car startT endT
  let conflict := s.bookings.any (fun b =>
    b.orgId = orgId && b.carId = some car.id && isOverlap startT endT b.start b.endT)
  ⟨"pool", car.id, !garage && !conflict⟩

/-- Verdict for one extra car in `GET /api/cars/availability`. -/
def extraVerdict (s : State) (orgId : Nat) (startT endT : Instant) (c : ExtraCar) : Verdict :=
  let conflict := s.bookings.any (fun b =>
    b.orgId = orgId && b.extraCarId = some c.id && isOverlap startT endT b.start b.endT)
  ⟨"extra", c.id, !conflict⟩

/-- Route `GET /api/cars/availability`: pool verdicts for every car, then verdicts
for the organization's extra cars whose date is the start instant's day. -/
def carsAvailability (s : State) (orgId : Nat) (startT endT : Instant) : List Verdict :=
  s.cars.map (poolVerdict s orgId startT endT) ++
    (s.extraCars.filter (fun e => e.orgId = orgId && e.date = isoDay startT)).map
      (extraVerdict s orgId startT endT)

/-- Ascending-start order used by `GET /api/bookings` (`order("start")`). -/
def startLE (a b : Booking) : Prop := a.start ≤ b.start

instance : DecidableRel startLE := fun a b => Nat.decLe a.start b.start

instance : IsTotal Booking startLE := ⟨fun a b => Nat.le_total a.start b.start⟩

instance : IsTrans Booking startLE := ⟨fun _ _ _ => Nat.le_trans⟩

/-- Route `GET /api/bookings` (the engine's `listBookings`): the organization's
bookings, optionally restricted to those whose start lies in
`[dayStartIso d, dayEndIso d)`, ordered by start ascending. -/
def listBookings (s : State) (orgId : Nat) (date : Option Nat) : List Booking :=
  let base := s.bookings.filter (fun b => b.orgId = orgId)
  let filtered :=
    match date with
    | none => base
    | some d => base.filter (fun b => dayStartIso d ≤ b.start && b.start < dayEndIso d)
  filtered.insertionSort startLE

/-- Route `PATCH /api/cars/:id` (the engine's `setMaintenance`): validate the status
token, then overwrite status and blackout window; the window columns are set
from the request body when either bound is supplied and cleared otherwise. -/
def setMaintenance (s : State) (id : Nat) (status : String)
    (unavailableFrom unavailableUntil : Option DateInput) :
    Except ApiError (Car × State) :=
  if ¬(status = "ok" ∨ status = "garage") then
    .error (.validation "Ongeldige status. Gebruik ok of garage.")
  else
    match s.cars.find? (fun c => c.id = id) with
    | none => .error (.notFound "Auto niet gevonden.")
    | some car =>
      let newFrom : Option Instant :=
        if unavailableFrom.isSome || unavailableUntil.isSome then
          unavailableFrom.map toDayStartIso
        else none
      let newUntil : Option Instant :=
        if unavailableFrom.isSome || unavailableUntil.isSome then
          unavailableUntil.map toDayEndIso
        else none
      let car' : Car :=
        { car with status := status, unavailableFrom := newFrom, unavailableUntil := newUntil }
      .ok (car', { s with cars := s.cars.map (fun c => if c.id = id then car' else c) })

/-- Next store after an engine reply: the new store on success, the old store
untouched on any error (every handler returns before its insert/delete). -/
def applyExcept {α : Type} (s : State) : Except ApiError (α × State) → State
  | .ok (_, s') => s'
  | .error _ => s

/-- One engine request touching the booking ledgers. -/
inductive Op where
  | createCar (orgId : Nat) (userName : String) (startT endT : Instant) (note : String)
      (carId extraCarId : Option Nat) (tok : Option Identity)
  | cancelCar (id : Nat) (tok : Option Identity)
  | createMeeting (roomId orgId : Nat) (title organizer : String)
      (startTime endTime : Instant) (tok : Option Identity)
  | cancelMeeting (id : Nat) (tok : Option Identity)

/-- Apply one request; a failed request leaves the store unchanged. -/
def applyOp (s : State) : Op → State
  | .createCar o u st en n c e t => applyExcept s (createBooking s o u st en n c e t)
  | .cancelCar i t => applyExcept s (cancelBooking s i t)
  | .createMeeting r o ti og st en t => applyExcept s (createMeetingBooking s r o ti og st en t)
  | .cancelMeeting i t => applyExcept s (cancelMeetingBooking s i t)

/-- Run a sequence of requests. -/
def runOps (s : State) (ops : List Op) : State := ops.foldl applyOp s

/-- A store with a pre-populated resource catalog and empty booking ledgers. -/
def initialState (cars : List Car) (extraCars : List ExtraCar) (rooms : List MeetingRoom)
    (nextBookingId nextMeetingBookingId : Nat) : State :=
  ⟨cars, extraCars, rooms, [], [], nextBookingId, nextMeetingBookingId⟩

/-- Two car-booking rows reference the same resource of the same class. -/
def sameCarResource (b1 b2 : Booking) : Prop :=
  (b1.carId.isSome = true ∧ b1.carId = b2.carId) ∨
  (b1.extraCarId.isSome = true ∧ b1.extraCarId = b2.extraCarId)

instance (b1 b2 : Booking) : Decidable (sameCarResource b1 b2) := by
  unfold sameCarResource; infer_instance

/-- Car bookings of one organization on one resource never overlap. -/
def carNoOverlap (b1 b2 : Booking) : Prop :=
  b1.orgId = b2.orgId → sameCarResource b1 b2 →
    isOverlap b1.start b1.endT b2.start b2.endT = false

/-- Meeting bookings on one room never overlap, whichever organizations made
them. -/
def roomNoOverlap (m1 m2 : MeetingBooking) : Prop :=
  m1.roomId = m2.roomId →
    isOverlap m1.startTime m1.endTime m2.startTime m2.endTime = false

/-- The no-overlap invariant as the code maintains it: per organization for car
bookings, per room for meeting bookings. -/
def NoOverlapInv (s : State) : Prop :=
  s.bookings.Pairwise carNoOverlap ∧ s.meetingBookings.Pairwise roomNoOverlap

/-- The claim's stronger reading: same-resource car bookings must not overlap
even across organizations. -/
def ClaimedNoOverlapInv (s : State) : Prop :=
  s.bookings.Pairwise (fun b1 b2 => sameCarResource b1 b2 →
    isOverlap b1.start b1.endT b2.start b2.endT = false) ∧
  s.meetingBookings.Pairwise roomNoOverlap

instance : DecidableRel carNoOverlap := fun b1 b2 => by
  unfold carNoOverlap; infer_instance

instance : DecidableRel roomNoOverlap := fun m1 m2 => by
  unfold roomNoOverlap; infer_instance

instance (s : State) : Decidable (NoOverlapInv s) := by
  unfold NoOverlapInv; infer_instance

instance (s : State) : Decidable (ClaimedNoOverlapInv s) := by
  unfold ClaimedNoOverlapInv; infer_instance

lemma isOverlap_eq_true {a b c d : Instant} : isOverlap a b c d = true ↔ a < d ∧ c < b := by
  simp [isOverlap]

lemma isOverlap_eq_false {a b c d : Instant} :
    isOverlap a b c d = false ↔ ¬(a < d ∧ c < b) := by
  rw [← Bool.not_eq_true, isOverlap_eq_true]

lemma createBooking_ok_spec {s : State} {o : Nat} {u : String} {st en : Instant}
    {n : String} {c e : Option Nat} {tok : Option Identity} {b : Booking} {s' : State}
    (h : createBooking s o u st en n c e tok = .ok (b, s')) :
    s' = insertBooking s b ∧ b.orgId = o ∧ b.start = st ∧ b.endT = en ∧
      ((∃ cid, b.carId = some cid ∧ b.extraCarId = none ∧
          poolOverlaps s.bookings o cid st en = []) ∨
       (∃ eid, b.carId = none ∧ b.extraCarId = some eid ∧
          extraOverlaps s.bookings o eid st en = [])) := by
  unfold createBooking at h
  split at h
  · exact absurd h (by simp)
  · split at h
    · exact absurd h (by simp)
    · exact absurd h (by simp)
    · split at h
      · exact absurd h (by simp)
      · split at h
        · exact absurd h (by simp)
        · split at h
          · exact absurd h (by simp)
          · rename_i cid _ car hfind hgar hov
            simp only [Except.ok.injEq, Prod.mk.injEq] at h
            obtain ⟨hb, hs⟩ := h
            subst hb
            subst hs
            refine ⟨rfl, rfl, rfl, rfl, Or.inl ⟨cid, rfl, rfl, ?_⟩⟩
            simpa [List.isEmpty_iff] using hov
    · split at h
      · exact absurd h (by simp)
      · split at h
        · exact absurd h (by simp)
        · rename_i eid _ ec hfind hov
          simp only [Except.ok.injEq, Prod.mk.injEq] at h
          obtain ⟨hb, hs⟩ := h
          subst hb
          subst hs
          refine ⟨rfl, rfl, rfl, rfl, Or.inr ⟨eid, rfl, rfl, ?_⟩⟩
          simpa [List.isEmpty_iff] using hov

lemma cancelBooking_ok_spec {s : State} {id : Nat} {tok : Option Identity}
    {bk : Booking} {s' : State} (h : cancelBooking s id tok = .ok (bk, s')) :
    s'.bookings = s.bookings.filter (fun b => b.id ≠ id) ∧
    s'.meetingBookings = s.meetingBookings := by
  unfold cancelBooking at h
  split at h
  · exact absurd h (by simp)
  · split at h
    · split at h
      · exact absurd h (by simp)
      · split at h
        · exact absurd h (by simp)
        · simp only [Except.ok.injEq, Prod.mk.injEq] at h
          obtain ⟨_, hs⟩ := h
          subst hs
          exact ⟨rfl, rfl⟩
    · simp only [Except.ok.injEq, Prod.mk.injEq] at h
      obtain ⟨_, hs⟩ := h
      subst hs
      exact ⟨rfl, rfl⟩

lemma createMeetingBooking_ok_spec {s : State} {r o : Nat} {ti og : String}
    {st en : Instant} {tok : Option Identity} {m : MeetingBooking} {s' : State}
    (h : createMeetingBooking s r o ti og st en tok = .ok (m, s')) :
    s' = insertMeetingBooking s m ∧ m.roomId = r ∧ m.startTime = st ∧ m.endTime = en ∧
      meetingOverlaps s.meetingBookings r st en = [] := by
  unfold createMeetingBooking at h
  split at h
  · exact absurd h (by simp)
  · split at h
    · exact absurd h (by simp)
    · split at h
      · exact absurd h (by simp)
      · rename_i room hfind hov
        simp only [Except.ok.injEq, Prod.mk.injEq] at h
        obtain ⟨hm, hs⟩ := h
        subst hm
        subst hs
        refine ⟨rfl, rfl, rfl, rfl, ?_⟩
        simpa [List.isEmpty_iff] using hov

lemma cancelMeetingBooking_ok_spec {s : State} {id : Nat} {tok : Option Identity}
    {mk' : MeetingBooking} {s' : State} (h : cancelMeetingBooking s id tok = .ok (mk', s')) :
    s'.meetingBookings = s.meetingBookings.filter (fun m => m.id ≠ id) ∧
    s'.bookings = s.bookings := by
  unfold cancelMeetingBooking at h
  split at h
  · exact absurd h (by simp)
  · split at h
    · split at h
      · exact absurd h (by simp)
      · split at h
        · exact absurd h (by simp)
        · simp only [Except.ok.injEq, Prod.mk.injEq] at h
          obtain ⟨_, hs⟩ := h
          subst hs
          exact ⟨rfl, rfl⟩
    · simp only [Except.ok.injEq, Prod.mk.injEq] at h
      obtain ⟨_, hs⟩ := h
      subst hs
      exact ⟨rfl, rfl⟩

lemma poolOverlaps_nil_noOverlap {bs : List Booking} {o cid : Nat} {st en : Instant}
    (h : poolOverlaps bs o cid st en = []) {x : Booking} (hx : x ∈ bs)
    (horg : x.orgId = o) (hcar : x.carId = some cid) :
    isOverlap x.start x.endT st en = false := by
  unfold poolOverlaps at h
  have hp := List.filter_eq_nil_iff.mp h x hx
  simp only [Bool.and_eq_true, decide_eq_true_eq] at hp
  rw [isOverlap_eq_false]
  rintro ⟨h1, h2⟩
  exact hp ⟨⟨⟨horg, hcar⟩, h1⟩, h2⟩

lemma extraOverlaps_nil_noOverlap {bs : List Booking} {o eid : Nat} {st en : Instant}
    (h : extraOverlaps bs o eid st en = []) {x : Booking} (hx : x ∈ bs)
    (horg : x.orgId = o) (hcar : x.extraCarId = some eid) :
    isOverlap x.start x.endT st en = false := by
  unfold extraOverlaps at h
  have hp := List.filter_eq_nil_iff.mp h x hx
  simp only [Bool.and_eq_true, decide_eq_true_eq] at hp
  rw [isOverlap_eq_false]
  rintro ⟨h1, h2⟩
  exact hp ⟨⟨⟨horg, hcar⟩, h1⟩, h2⟩

lemma meetingOverlaps_nil_noOverlap {ms : List MeetingBooking} {r : Nat} {st en : Instant}
    (h : meetingOverlaps ms r st en = []) {x : MeetingBooking} (hx : x ∈ ms)
    (hroom : x.roomId = r) :
    isOverlap x.startTime x.endTime st en = false := by
  unfold meetingOverlaps at h
  have hp := List.filter_eq_nil_iff.mp h x hx
  simp only [Bool.and_eq_true, decide_eq_true_eq] at hp
  rw [isOverlap_eq_false]
  rintro ⟨h1, h2⟩
  exact hp ⟨⟨hroom, h1⟩, h2⟩

lemma noOverlapInv_applyOp {s : State} (h : NoOverlapInv s) (op : Op) :
    NoOverlapInv (applyOp s op) := by
  cases op with
  | createCar o u st en n c e t =>
    cases hr : createBooking s o u st en n c e t with
    | error err => simpa [applyOp, applyExcept, hr] using h
    | ok p =>
      obtain ⟨b, s'⟩ := p
      obtain ⟨hs', horg, hst, hen, hres⟩ := createBooking_ok_spec hr
      subst hs'
      subst hst
      subst hen
      simp only [applyOp, applyExcept, hr]
      refine ⟨?_, h.2⟩
      rw [insertBooking]
      rw [List.pairwise_append]
      refine ⟨h.1, by simp, ?_⟩
      intro x hx b' hb'
      rw [List.mem_singleton] at hb'
      subst hb'
      intro horg2 hsame
      rcases hres with ⟨cid, hcar, hext, hnil⟩ | ⟨eid, hcar, hext, hnil⟩
      · rcases hsame with ⟨hxs, hxeq⟩ | ⟨hxs, hxeq⟩
        · exact poolOverlaps_nil_noOverlap hnil hx (horg2.trans horg) (hxeq.trans hcar)
        · rw [hxeq, hext] at hxs
          exact absurd hxs (by simp)
      · rcases hsame with ⟨hxs, hxeq⟩ | ⟨hxs, hxeq⟩
        · rw [hxeq, hcar] at hxs
          exact absurd hxs (by simp)
        · exact extraOverlaps_nil_noOverlap hnil hx (horg2.trans horg) (hxeq.trans hext)
  | cancelCar i t =>
    cases hr : cancelBooking s i t with
    | error err => simpa [applyOp, applyExcept, hr] using h
    | ok p =>
      obtain ⟨bk, s'⟩ := p
      obtain ⟨hb, hm⟩ := cancelBooking_ok_spec hr
      simp only [applyOp, applyExcept, hr]
      refine ⟨?_, ?_⟩
      · rw [hb]
        exact h.1.sublist (List.filter_sublist _)
      · rw [hm]
        exact h.2
  | createMeeting r o ti og st en t =>
    cases hr : createMeetingBooking s r o ti og st en t with
    | error err => simpa [applyOp, applyExcept, hr] using h
    | ok p =>
      obtain ⟨m, s'⟩ := p
      obtain ⟨hs', hroom, hst, hen, hnil⟩ := createMeetingBooking_ok_spec hr
      subst hs'
      subst hst
      subst hen
      simp only [applyOp, applyExcept, hr]
      refine ⟨h.1, ?_⟩
      rw [insertMeetingBooking]
      rw [List.pairwise_append]
      refine ⟨h.2, by simp, ?_⟩
      intro x hx m' hm'
      rw [List.mem_singleton] at hm'
      subst hm'
      intro hroom2
      exact meetingOverlaps_nil_noOverlap hnil hx (hroom2.trans hroom)
  | cancelMeeting i t =>
    cases hr : cancelMeetingBooking s i t with
    | error err => simpa [applyOp, applyExcept, hr] using h
    | ok p =>
      obtain ⟨mk', s'⟩ := p
      obtain ⟨hm, hb⟩ := cancelMeetingBooking_ok_spec hr
      simp only [applyOp, applyExcept, hr]
      refine ⟨?_, ?_⟩
      · rw [hb]
        exact h.1
      · rw [hm]
        exact h.2.sublist (List.filter_sublist _)

lemma noOverlapInv_runOps {s : State} (h : NoOverlapInv s) (ops : List Op) :
    NoOverlapInv (runOps s ops) := by
  induction ops generalizing s with
  | nil => exact h
  | cons op ops ih => exact ih (noOverlapInv_applyOp h op)

/-- A single shared pool car, visible to every organization. -/
def c1Car : Car := ⟨1, "Toyota Aygo", "S-551-FT", "ok", none, none⟩

/-- Store with the one pool car and empty booking ledgers. -/
def c1Init : State := initialState [c1Car] [] [] 1 1

/-- Two organizations book the same pool car for overlapping windows; both
creates succeed because the overlap query is filtered by `org_id`. -/
def c1Ops : List Op :=
  [.createCar 1 "alice" 0 100 "" (some 1) none none,
   .createCar 2 "bob" 50 150 "" (some 1) none none]

/-- C1, counterexample: the no-overlap invariant as claimed (same resource of
the same class, with no organization qualifier) fails.  Starting from an empty
booking store, org 1 books pool car 1 for `[0, 100)` and org 2 books the same
car for `[50, 150)`; both `createBooking` calls succeed, because the code's
overlap query is additionally filtered by `org_id`, leaving two live bookings
on the same pool car whose intervals overlap. -/
theorem c1_cross_org_counterexample : ¬ ClaimedNoOverlapInv (runOps c1Init c1Ops) := by
  decide

/-- C1, amended: starting from an empty booking store, after any sequence of
`createBooking`/`cancelBooking` (and meeting-booking) operations, two distinct
live car bookings never overlap when they reference the same resource of the
same class within the same organization, and two distinct live meeting-room
bookings never overlap when they reference the same room (rooms are contended
across organizations). -/
theorem c1_no_overlap_invariant (cars : List Car) (extraCars : List ExtraCar)
    (rooms : List MeetingRoom) (nb nm : Nat) (ops : List Op) :
    NoOverlapInv (runOps (initialState cars extraCars rooms nb nm) ops) :=
  noOverlapInv_runOps ⟨List.Pairwise.nil, List.Pairwise.nil⟩ ops

/-- C3: the overlap predicate is a pure total function; it returns `true`
exactly when `startA < endB` and `startB < endA`, and an exact boundary touch
(`endA = startB`) is never an overlap. -/
theorem c3_isOverlap_spec :
    (∀ a b c d : Instant, isOverlap a b c d = true ↔ a < d ∧ c < b) ∧
    (∀ a b d : Instant, isOverlap a b b d = false) := by
  refine ⟨fun a b c d => isOverlap_eq_true, fun a b d => ?_⟩
  rw [isOverlap_eq_false]
  rintro ⟨-, h2⟩
  exact Nat.lt_irrefl b h2

lemma createBooking_pool_spec {s : State} {o : Nat} {u : String} {st en : Instant}
    {n : String} {cid : Nat} {tok : Option Identity} {car : Car}
    (hr : st < en)
    (hfind : s.cars.find? (fun c => c.id = cid) = some car)
    (hblock : carBlocked car st en = false) :
    createBooking s o u st en n (some cid) none tok =
      if !(poolOverlaps s.bookings o cid st en).isEmpty then
        .error (.conflict "Deze auto is in deze periode al geboekt.")
      else
        .ok (⟨s.nextBookingId, o, some cid, none, tok.map Identity.userId, u, st, en, n⟩,
          insertBooking s ⟨s.nextBookingId, o, some cid, none, tok.map Identity.userId, u, st, en, n⟩) := by
  have h1 : ¬ en ≤ st := Nat.not_le.mpr hr
  unfold createBooking
  simp only [if_neg h1, hfind, hblock, Bool.false_eq_true, if_false]

lemma createBooking_extra_spec {s : State} {o : Nat} {u : String} {st en : Instant}
    {n : String} {eid : Nat} {tok : Option Identity} {ecar : ExtraCar}
    (hr : st < en)
    (hfind : s.extraCars.find? (fun e =>
      e.id = eid && e.orgId = o && e.date = isoDay st) = some ecar) :
    createBooking s o u st en n none (some eid) tok =
      if !(extraOverlaps s.bookings o eid st en).isEmpty then
        .error (.conflict "Deze extra auto is in deze periode al geboekt.")
      else
        .ok (⟨s.nextBookingId, o, none, some eid, tok.map Identity.userId, u, st, en, n⟩,
          insertBooking s ⟨s.nextBookingId, o, none, some eid, tok.map Identity.userId, u, st, en, n⟩) := by
  have h1 : ¬ en ≤ st := Nat.not_le.mpr hr
  unfold createBooking
  simp only [if_neg h1, hfind]



lemma poolOverlaps_mem {bs : List Booking} {o cid : Nat} {st en : Instant} {x : Booking} :
    x ∈ poolOverlaps bs o cid st en ↔
      x ∈ bs ∧ (x.orgId = o ∧ x.carId = some cid ∧ x.start < en ∧ st < x.endT) := by
  unfold poolOverlaps
  rw [List.mem_filter]
  simp [Bool.and_eq_true, decide_eq_true_eq, and_assoc]

lemma poolOverlaps_isEmpty_false_iff {bs : List Booking} {o cid : Nat} {st en : Instant} :
    (poolOverlaps bs o cid st en).isEmpty = false ↔
      ∃ x ∈ bs, x.orgId = o ∧ x.carId = some cid ∧ x.start < en ∧ st < x.endT := by
  constructor
  · intro h
    have hne : poolOverlaps bs o cid st en ≠ [] := by
      intro hh
      rw [hh] at h
      exact absurd h (by simp)
    obtain ⟨x, hx⟩ := List.exists_mem_of_ne_nil _ hne
    exact ⟨x, (poolOverlaps_mem.mp hx).1, (poolOverlaps_mem.mp hx).2⟩
  · rintro ⟨x, hxm, hxp⟩
    have hx : x ∈ poolOverlaps bs o cid st en := poolOverlaps_mem.mpr ⟨hxm, hxp⟩
    cases hemp : (poolOverlaps bs o cid st en).isEmpty with
    | false => rfl
    | true =>
      rw [List.isEmpty_iff] at hemp
      rw [hemp] at hx
      exact absurd hx (by simp)



lemma extraOverlaps_mem {bs : List Booking} {o eid : Nat} {st en : Instant} {x : Booking} :
    x ∈ extraOverlaps bs o eid st en ↔
      x ∈ bs ∧ (x.orgId = o ∧ x.extraCarId = some eid ∧ x.start < en ∧ st < x.endT) := by
  unfold extraOverlaps
  rw [List.mem_filter]
  simp [Bool.and_eq_true, decide_eq_true_eq, and_assoc]

lemma extraOverlaps_isEmpty_false_iff {bs : List Booking} {o eid : Nat} {st en : Instant} :
    (extraOverlaps bs o eid st en).isEmpty = false ↔
      ∃ x ∈ bs, x.orgId = o ∧ x.extraCarId = some eid ∧ x.start < en ∧ st < x.endT := by
  constructor
  · intro h
    have hne : extraOverlaps bs o eid st en ≠ [] := by
      intro hh
      rw [hh] at h
      exact absurd h (by simp)
    obtain ⟨x, hx⟩ := List.exists_mem_of_ne_nil _ hne
    exact ⟨x, (extraOverlaps_mem.mp hx).1, (extraOverlaps_mem.mp hx).2⟩
  · rintro ⟨x, hxm, hxp⟩
    have hx : x ∈ extraOverlaps bs o eid st en := extraOverlaps_mem.mpr ⟨hxm, hxp⟩
    cases hemp : (extraOverlaps bs o eid st en).isEmpty with
    | false => rfl
    | true =>
      rw [List.isEmpty_iff] at hemp
      rw [hemp] at hx
      exact absurd hx (by simp)

/-- C2 (amended): with a resolvable target resource that is not blocked by
maintenance and a valid range, `createBooking` fails with the booking
`ConflictError` if and only if some existing booking of the same organization
on the same resource strictly overlaps the requested window (so a booking
ending exactly when another begins is not a conflict and both creates
succeed), and every failing create leaves the store unchanged.  (As stated the
claim is refuted by `c2_garage_conflict_counterexample`: a maintenance-blocked
resource also yields a `ConflictError` with no overlapping booking, and the
overlap test is scoped to the caller's organization.) -/
theorem c2_conflict_iff_overlap (s : State) (o : Nat) (u : String) (st en : Instant)
    (n : String) (tok : Option Identity) :
    (∀ cid car, st < en →
      s.cars.find? (fun c => c.id = cid) = some car →
      carBlocked car st en = false →
      ((createBooking s o u st en n (some cid) none tok =
          .error (.conflict "Deze auto is in deze periode al geboekt.") ↔
        ∃ x ∈ s.bookings, x.orgId = o ∧ x.carId = some cid ∧ x.start < en ∧ st < x.endT) ∧
       ((¬ ∃ x ∈ s.bookings, x.orgId = o ∧ x.carId = some cid ∧ x.start < en ∧ st < x.endT) →
        ∃ b s', createBooking s o u st en n (some cid) none tok = .ok (b, s')))) ∧
    (∀ eid ecar, st < en →
      s.extraCars.find? (fun e => e.id = eid && e.orgId = o && e.date = isoDay st) = some ecar →
      ((createBooking s o u st en n none (some eid) tok =
          .error (.conflict "Deze extra auto is in deze periode al geboekt.") ↔
        ∃ x ∈ s.bookings, x.orgId = o ∧ x.extraCarId = some eid ∧ x.start < en ∧ st < x.endT) ∧
       ((¬ ∃ x ∈ s.bookings, x.orgId = o ∧ x.extraCarId = some eid ∧ x.start < en ∧ st < x.endT) →
        ∃ b s', createBooking s o u st en n none (some eid) tok = .ok (b, s')))) ∧
    (∀ c e err, createBooking s o u st en n c e tok = .error err →
      applyOp s (.createCar o u st en n c e tok) = s) := by
  refine ⟨?_, ?_, ?_⟩
  · intro cid car hr hfind hblock
    have key := @createBooking_pool_spec s o u st en n cid tok car hr hfind hblock
    constructor
    · rw [key]
      constructor
      · intro heq
        cases hemp : (poolOverlaps s.bookings o cid st en).isEmpty with
        | false => exact poolOverlaps_isEmpty_false_iff.mp hemp
        | true =>
          rw [hemp] at heq
          exact absurd heq (by simp)
      · intro hex
        have hemp := poolOverlaps_isEmpty_false_iff.mpr hex
        rw [hemp]
        rfl
    · intro hno
      have hemp : (poolOverlaps s.bookings o cid st en).isEmpty = true := by
        cases hemp' : (poolOverlaps s.bookings o cid st en).isEmpty with
        | false => exact absurd (poolOverlaps_isEmpty_false_iff.mp hemp') hno
        | true => rfl
      refine ⟨⟨s.nextBookingId, o, some cid, none, tok.map Identity.userId, u, st, en, n⟩,
        insertBooking s ⟨s.nextBookingId, o, some cid, none, tok.map Identity.userId, u, st, en, n⟩, ?_⟩
      rw [key, hemp]
      rfl
  · intro eid ecar hr hfind
    have key := @createBooking_extra_spec s o u st en n eid tok ecar hr hfind
    constructor
    · rw [key]
      constructor
      · intro heq
        cases hemp : (extraOverlaps s.bookings o eid st en).isEmpty with
        | false => exact extraOverlaps_isEmpty_false_iff.mp hemp
        | true =>
          rw [hemp] at heq
          exact absurd heq (by simp)
      · intro hex
        have hemp := extraOverlaps_isEmpty_false_iff.mpr hex
        rw [hemp]
        rfl
    · intro hno
      have hemp : (extraOverlaps s.bookings o eid st en).isEmpty = true := by
        cases hemp' : (extraOverlaps s.bookings o eid st en).isEmpty with
        | false => exact absurd (extraOverlaps_isEmpty_false_iff.mp hemp') hno
        | true => rfl
      refine ⟨⟨s.nextBookingId, o, none, some eid, tok.map Identity.userId, u, st, en, n⟩,
        insertBooking s ⟨s.nextBookingId, o, none, some eid, tok.map Identity.userId, u, st, en, n⟩, ?_⟩
      rw [key, hemp]
      rfl
  · intro c e err herr
    simp only [applyOp, applyExcept, herr]



/-- A pool car in `garage` status with no blackout window. -/
def c2GarageCar : Car := ⟨1, "MB Bus", "V-840-NP", "garage", none, none⟩

/-- Store with only the garage car and no bookings at all. -/
def c2GarageState : State := initialState [c2GarageCar] [] [] 1 1

/-- C2, counterexample: `createBooking` against a maintenance-blocked pool car
fails with a `ConflictError` although the booking store is empty, so no
existing booking overlaps the requested window; the claimed "if and only if"
therefore fails in the only-if direction. -/
theorem c2_garage_conflict_counterexample :
    createBooking c2GarageState 1 "user" 0 10 "" (some 1) none none =
      .error (.conflict "Deze auto staat in deze periode op garage / niet beschikbaar.") ∧
    c2GarageState.bookings = [] := by
  exact ⟨rfl, rfl⟩

/-- Store for the C2 witness: one available pool car and one booking `[10, 20)`
on it by org 1. -/
def c2WitState : State :=
  ⟨[⟨1, "Toyota Aygo", "S-551-FT", "ok", none, none⟩], [], [],
    [⟨1, 1, some 1, none, none, "alice", 10, 20, ""⟩], [], 2, 1⟩

/-- Witness for C2: on a concrete store holding a booking `[10, 20)` for pool
car 1, a second booking `[20, 30)` touching only at the boundary is not a
conflict and the create succeeds. -/
theorem c2_conflict_iff_overlap_witness :
    ∃ b s', createBooking c2WitState 1 "bob" 20 30 "" (some 1) none none = .ok (b, s') :=
  ((c2_conflict_iff_overlap c2WitState 1 "bob" 20 30 "" none).1 1
    ⟨1, "Toyota Aygo", "S-551-FT", "ok", none, none⟩ (by decide) rfl rfl).2 (by decide)


lemma carBlocked_iff (c : Car) (a b : Instant) :
    carBlocked c a b = true ↔
      effStatus c = "garage" ∧
        (c.unavailableFrom = none ∨ c.unavailableUntil = none ∨
          ∃ f u, c.unavailableFrom = some f ∧ c.unavailableUntil = some u ∧
            isOverlap a b f u = true) := by
  unfold carBlocked
  rcases hf : c.unavailableFrom with _ | f <;> rcases hu : c.unavailableUntil with _ | u' <;>
    simp [hf, hu, Bool.and_eq_true, decide_eq_true_eq]

/-- C4: a pool resource is blocked for a requested window exactly when its
status is `garage` (the spec's maintenance) and either its blackout window is
incomplete or absent (then it is blocked for every window) or the requested
window overlaps the blackout window; a blocked resource is reported
unavailable by the availability query, and `createBooking` against it fails
with a `ConflictError` while leaving the store unchanged. -/
theorem c4_maintenance_blocking (s : State) (o : Nat) (u n : String) (st en : Instant)
    (cid : Nat) (tok : Option Identity) (car : Car)
    (hr : st < en)
    (hfind : s.cars.find? (fun c => c.id = cid) = some car)
    (hblock : carBlocked car st en = true) :
    (∀ c : Car, ∀ a b : Instant, carBlocked c a b = true ↔
      (effStatus c = "garage" ∧
        (c.unavailableFrom = none ∨ c.unavailableUntil = none ∨
          ∃ f u', c.unavailableFrom = some f ∧ c.unavailableUntil = some u' ∧
            isOverlap a b f u' = true))) ∧
    (poolVerdict s o st en car).available = false ∧
    (car ∈ s.cars → poolVerdict s o st en car ∈ carsAvailability s o st en) ∧
    createBooking s o u st en n (some cid) none tok =
      .error (.conflict "Deze auto staat in deze periode op garage / niet beschikbaar.") ∧
    applyOp s (.createCar o u st en n (some cid) none tok) = s := by
  have herr : createBooking s o u st en n (some cid) none tok =
      .error (.conflict "Deze auto staat in deze periode op garage / niet beschikbaar.") := by
    unfold createBooking
    simp only [if_neg (Nat.not_le.mpr hr), hfind, hblock, if_true]
  refine ⟨fun c a b => carBlocked_iff c a b, ?_, ?_, herr, ?_⟩
  · simp [poolVerdict, hblock]
  · intro hmem
    unfold carsAvailability
    exact List.mem_append_left _ (List.mem_map_of_mem _ hmem)
  · simp only [applyOp, applyExcept, herr]

/-- Store for the C4 witness: one garage pool car with blackout `[100, 200]`. -/
def c4WitState : State :=
  initialState [⟨1, "Peugeot 107", "Z-365-HK", "garage", some 100, some 200⟩] [] [] 1 1

/-- Witness for C4: booking the blacked-out car for the overlapping window
`[150, 160)` is rejected with the garage conflict error. -/
theorem c4_maintenance_blocking_witness :
    createBooking c4WitState 1 "u" 150 160 "" (some 1) none none =
      .error (.conflict "Deze auto staat in deze periode op garage / niet beschikbaar.") :=
  (c4_maintenance_blocking c4WitState 1 "u" "" 150 160 1 none
    ⟨1, "Peugeot 107", "Z-365-HK", "garage", some 100, some 200⟩
    (by decide) rfl (by decide)).2.2.2.1


/-- C5: with a verified caller identity, cancellation is forbidden whenever the
caller is neither the booking's owner nor an admin, and equally for a legacy
(ownerless) booking and a non-admin caller; the owner of a booking they own,
or any admin, gets the booking deleted and returned; and a forbidden cancel
leaves the booking in the store. -/
theorem c5_cancel_authorization (s : State) (id : Nat) (u : Identity) (b : Booking)
    (hfind : s.bookings.find? (fun x => x.id = id) = some b) :
    ((b.userId ≠ some u.userId ∧ u.role ≠ "admin") →
      ∃ m, cancelBooking s id (some u) = .error (.forbidden m)) ∧
    ((b.userId = none ∧ u.role ≠ "admin") →
      ∃ m, cancelBooking s id (some u) = .error (.forbidden m)) ∧
    ((b.userId = some u.userId ∨ u.role = "admin") →
      cancelBooking s id (some u) =
        .ok (b, { s with bookings := s.bookings.filter (fun x => x.id ≠ id) })) ∧
    (∀ m, cancelBooking s id (some u) = .error (.forbidden m) →
      b ∈ s.bookings ∧ applyOp s (.cancelCar id (some u)) = s) := by
  have key : cancelBooking s id (some u) =
      (if !decide (b.userId = some u.userId) && !decide (u.role = "admin") then
        .error (.forbidden "Je kunt alleen je eigen reserveringen verwijderen")
      else if decide (b.userId = none) && !decide (u.role = "admin") then
        .error (.forbidden "Oude reserveringen kunnen alleen door admins verwijderd worden")
      else
        .ok (b, { s with bookings := s.bookings.filter (fun x => x.id ≠ id) })) := by
    unfold cancelBooking
    simp only [hfind]
  refine ⟨?_, ?_, ?_, ?_⟩
  · rintro ⟨h1, h2⟩
    refine ⟨"Je kunt alleen je eigen reserveringen verwijderen", ?_⟩
    rw [key]
    simp [h1, h2]
  · rintro ⟨h1, h2⟩
    refine ⟨"Je kunt alleen je eigen reserveringen verwijderen", ?_⟩
    rw [key]
    simp [h1, h2]
  · intro h3
    rw [key]
    rcases h3 with howner | hadmin
    · simp [howner]
    · simp [hadmin]
  · intro m hm
    exact ⟨List.mem_of_find?_eq_some hfind, by simp only [applyOp, applyExcept, hm]⟩

/-- Store for the C5 witness: a booking owned by user 7 of org 1. -/
def c5WitState : State :=
  ⟨[], [], [], [⟨1, 1, some 1, none, some 7, "alice", 0, 10, ""⟩], [], 2, 1⟩

/-- Witness for C5: user 7 (a non-admin member) cancels their own booking and
gets it back; the row is removed from the store. -/
theorem c5_cancel_authorization_witness :
    cancelBooking c5WitState 1 (some ⟨7, 1, "member"⟩) =
      .ok (⟨1, 1, some 1, none, some 7, "alice", 0, 10, ""⟩,
        { c5WitState with bookings := c5WitState.bookings.filter (fun x => x.id ≠ 1) }) :=
  (c5_cancel_authorization c5WitState 1 ⟨7, 1, "member"⟩
    ⟨1, 1, some 1, none, some 7, "alice", 0, 10, ""⟩ rfl).2.2.1 (Or.inl rfl)


/-- C6: for an ephemeral (extra) resource fixed to one calendar day (the store
holding no other extra car with its id), a create request whose start instant
falls on a different UTC day cannot resolve the resource: `createBooking`
fails with the not-found validation error and the store is unchanged; a
request whose start day matches the resource's day (for the owning
organization) passes the resource-resolution step. -/
theorem c6_ephemeral_day_scope (s : State) (o : Nat) (u n : String) (st en : Instant)
    (eid : Nat) (tok : Option Identity) (e : ExtraCar)
    (hr : st < en) (he : e ∈ s.extraCars) (hid : e.id = eid)
    (huniq : ∀ e' ∈ s.extraCars, e'.id = eid → e' = e) :
    (e.date ≠ isoDay st →
      createBooking s o u st en n none (some eid) tok =
          .error (.validation "Extra auto niet gevonden (of niet beschikbaar vandaag).") ∧
        applyOp s (.createCar o u st en n none (some eid) tok) = s) ∧
    (e.date = isoDay st → e.orgId = o →
      createBooking s o u st en n none (some eid) tok ≠
        .error (.validation "Extra auto niet gevonden (of niet beschikbaar vandaag).")) := by
  constructor
  · intro hday
    have hfindnone : s.extraCars.find? (fun x =>
        x.id = eid && x.orgId = o && x.date = isoDay st) = none := by
      rw [List.find?_eq_none]
      intro x hx hpx
      simp only [Bool.and_eq_true, decide_eq_true_eq] at hpx
      obtain ⟨⟨hxid, -⟩, hxdate⟩ := hpx
      exact hday ((huniq x hx hxid) ▸ hxdate)
    have herr : createBooking s o u st en n none (some eid) tok =
        .error (.validation "Extra auto niet gevonden (of niet beschikbaar vandaag).") := by
      unfold createBooking
      simp only [if_neg (Nat.not_le.mpr hr), hfindnone]
    exact ⟨herr, by simp only [applyOp, applyExcept, herr]⟩
  · intro hday horg
    have hsome : (s.extraCars.find? (fun x =>
        x.id = eid && x.orgId = o && x.date = isoDay st)).isSome := by
      rw [List.find?_isSome]
      exact ⟨e, he, by simp [hid, horg, hday]⟩
    obtain ⟨ec, hfind⟩ := Option.isSome_iff_exists.mp hsome
    intro hcontra
    rw [createBooking_extra_spec hr hfind] at hcontra
    cases hemp : (extraOverlaps s.bookings o eid st en).isEmpty with
    | false =>
      rw [hemp] at hcontra
      exact absurd hcontra (by simp)
    | true =>
      rw [hemp] at hcontra
      exact absurd hcontra (by simp)

/-- Store for the C6 witness: one extra car fixed to day 20250 for org 1. -/
def c6WitState : State :=
  initialState [] [⟨3, 1, "X-728-DH", "Extra auto", 20250⟩] [] 1 1

/-- Witness for C6: booking the day-20250 extra car for a window starting on
day 20251 fails with the resolution error and changes nothing. -/
theorem c6_ephemeral_day_scope_witness :
    createBooking c6WitState 1 "u" (20251 * msPerDay) (20251 * msPerDay + 100) ""
        none (some 3) none =
      .error (.validation "Extra auto niet gevonden (of niet beschikbaar vandaag).") :=
  ((c6_ephemeral_day_scope c6WitState 1 "u" "" (20251 * msPerDay) (20251 * msPerDay + 100)
    3 none ⟨3, 1, "X-728-DH", "Extra auto", 20250⟩ (by decide) (by decide) rfl
    (by decide)).1 (by decide)).1


/-- C7: a create request whose end does not lie strictly after its start fails
with the range `ValidationError` before any resource resolution or overlap
check (for every resource selector and store) and leaves the store unchanged;
with end strictly after start this validation passes, so the request never
fails with the range error. -/
theorem c7_invalid_range (s : State) (o : Nat) (u n : String) (st en : Instant)
    (carId extraCarId : Option Nat) (tok : Option Identity) :
    (en ≤ st →
      createBooking s o u st en n carId extraCarId tok =
          .error (.validation "Eindtijd moet na starttijd liggen") ∧
        applyOp s (.createCar o u st en n carId extraCarId tok) = s) ∧
    (st < en →
      createBooking s o u st en n carId extraCarId tok ≠
        .error (.validation "Eindtijd moet na starttijd liggen")) := by
  constructor
  · intro hle
    have herr : createBooking s o u st en n carId extraCarId tok =
        .error (.validation "Eindtijd moet na starttijd liggen") := by
      unfold createBooking
      simp only [if_pos hle]
    exact ⟨herr, by simp only [applyOp, applyExcept, herr]⟩
  · intro hr hcontra
    unfold createBooking at hcontra
    rw [if_neg (Nat.not_le.mpr hr)] at hcontra
    split at hcontra
    · exact absurd hcontra (by simp)
    · exact absurd hcontra (by simp)
    · split at hcontra
      · exact absurd hcontra (by simp)
      · split at hcontra
        · exact absurd hcontra (by simp)
        · split at hcontra
          · exact absurd hcontra (by simp)
          · exact absurd hcontra (by simp)
    · split at hcontra
      · exact absurd hcontra (by simp)
      · split at hcontra
        · exact absurd hcontra (by simp)
        · exact absurd hcontra (by simp)

/-- Store for the C7 witness: one available pool car, no bookings. -/
def c7WitState : State :=
  initialState [⟨1, "Citroen C1", "39-RGG-5", "ok", none, none⟩] [] [] 1 1

/-- Witness for C7: an empty-window request `[100, 100)` is rejected with the
range validation error on a concrete store. -/
theorem c7_invalid_range_witness :
    createBooking c7WitState 1 "u" 100 100 "" (some 1) none none =
      .error (.validation "Eindtijd moet na starttijd liggen") :=
  ((c7_invalid_range c7WitState 1 "u" "" 100 100 (some 1) none none).1 (by decide)).1


/-- C8 (amended): `listBookings` with a day filter returns exactly the
organization's bookings whose start lies in the half-open range from the day's
`00:00:00.000` up to but excluding `23:59:59.999`, ordered by start ascending;
a booking starting on an adjacent day is never included.  (As stated the claim
is refuted by `c8_day_end_excluded_counterexample`: the code filters with
`start < dayEndIso`, so a booking starting exactly at `23:59:59.999` of the
requested day is excluded, not included.) -/
theorem c8_list_day_filter (s : State) (o d : Nat) :
    (listBookings s o (some d)).Sorted startLE ∧
    (∀ b : Booking, b ∈ listBookings s o (some d) ↔
      b ∈ s.bookings ∧ b.orgId = o ∧ dayStartIso d ≤ b.start ∧ b.start < dayEndIso d) ∧
    (∀ b : Booking, isoDay b.start ≠ d → b ∉ listBookings s o (some d)) := by
  have hmemiff : ∀ b : Booking, b ∈ listBookings s o (some d) ↔
      b ∈ s.bookings ∧ b.orgId = o ∧ dayStartIso d ≤ b.start ∧ b.start < dayEndIso d := by
    intro b
    unfold listBookings
    rw [(List.perm_insertionSort startLE _).mem_iff]
    simp only [List.mem_filter, Bool.and_eq_true, decide_eq_true_eq]
    tauto
  refine ⟨?_, hmemiff, ?_⟩
  · unfold listBookings
    exact List.sorted_insertionSort startLE _
  · intro b hday hmem
    obtain ⟨-, -, h1, h2⟩ := (hmemiff b).mp hmem
    apply hday
    show b.start / msPerDay = d
    apply Nat.div_eq_of_lt_le
    · simpa [dayStartIso] using h1
    · simp only [dayEndIso, msPerDay] at h2
      simp only [msPerDay]
      exact Nat.lt_of_lt_of_le h2 (by omega)

/-- The booking starting exactly at `23:59:59.999` UTC of day 0. -/
def c8Booking : Booking := ⟨1, 1, some 1, none, none, "u", 86399999, 86400100, ""⟩

/-- Store holding only that booking. -/
def c8State : State := ⟨[], [], [], [c8Booking], [], 2, 1⟩

/-- C8, counterexample: the booking starts at instant `86399999`, which is
`23:59:59.999` of UTC day 0 (its `isoDay` is 0), it belongs to org 1, yet the
day-0 listing for org 1 is empty because the filter uses a strict upper bound
at `23:59:59.999` rather than including it, contradicting the claimed
inclusive day end. -/
theorem c8_day_end_excluded_counterexample :
    isoDay c8Booking.start = 0 ∧ c8Booking ∈ c8State.bookings ∧ c8Booking.orgId = 1 ∧
    listBookings c8State 1 (some 0) = [] := by
  decide

/-- A booking well inside day 0. -/
def c8WitBooking : Booking := ⟨1, 1, some 1, none, none, "u", 100, 200, ""⟩

/-- Store for the C8 witness. -/
def c8WitState : State := ⟨[], [], [], [c8WitBooking], [], 2, 1⟩

/-- Witness for C8: a booking starting at instant 100 of day 0 appears in the
day-0 listing of its organization. -/
theorem c8_list_day_filter_witness : c8WitBooking ∈ listBookings c8WitState 1 (some 0) :=
  ((c8_list_day_filter c8WitState 1 0).2.1 c8WitBooking).mpr (by decide)


/-- A pool car currently in garage status with a stored blackout window. -/
def c9Car : Car := ⟨1, "Volkswagen Polo", "TS-001-B", "garage", some 0, some 86399999⟩

/-- Store holding only that car. -/
def c9State : State := initialState [c9Car] [] [] 1 1

/-- C9, counterexample: setting the status back to `ok` (the spec's
`available`) while a window is supplied in the call does not clear the
blackout window; the returned car stores day 5's start and day 6's end as the
new window, refuting "clears the blackout window regardless of any window
supplied in the call". -/
theorem c9_window_not_cleared_counterexample :
    (setMaintenance c9State 1 "ok" (some (.day 5)) (some (.day 6))).toOption.map
        (fun p => (p.1.status, p.1.unavailableFrom, p.1.unavailableUntil)) =
      some ("ok", some 432000000, some 604799999) := by
  decide

/-- C9 (amended): `setMaintenance` with a status outside the two recognized
values fails with `ValidationError` and leaves the store unchanged; with a
recognized status and no window supplied in the call, both blackout fields are
cleared to `null` (in particular when status returns to `ok`); when a window
bound is supplied in the call it is stored, converted to UTC day boundaries,
whatever the status.  (As stated the claim is refuted by
`c9_window_not_cleared_counterexample`: a window supplied together with
status `ok` is stored, not cleared.) -/
theorem c9_set_maintenance (s : State) (id : Nat) (status : String)
    (f u : Option DateInput) :
    ((status ≠ "ok" ∧ status ≠ "garage") →
      setMaintenance s id status f u =
          .error (.validation "Ongeldige status. Gebruik ok of garage.") ∧
        applyExcept s (setMaintenance s id status f u) = s) ∧
    (∀ car, s.cars.find? (fun c => c.id = id) = some car →
      (status = "ok" ∨ status = "garage") →
      ((f = none → u = none →
        setMaintenance s id status f u =
          .ok ({ car with
                  status := status,
                  unavailableFrom := none,
                  unavailableUntil := none },
            { s with cars := s.cars.map (fun c => if c.id = id then
                { car with
                    status := status,
                    unavailableFrom := none,
                    unavailableUntil := none } else c) })) ∧
       ((f.isSome = true ∨ u.isSome = true) →
        setMaintenance s id status f u =
          .ok ({ car with
                  status := status,
                  unavailableFrom := f.map toDayStartIso,
                  unavailableUntil := u.map toDayEndIso },
            { s with cars := s.cars.map (fun c => if c.id = id then
                { car with
                    status := status,
                    unavailableFrom := f.map toDayStartIso,
                    unavailableUntil := u.map toDayEndIso } else c) })))) := by
  constructor
  · rintro ⟨h1, h2⟩
    have herr : setMaintenance s id status f u =
        .error (.validation "Ongeldige status. Gebruik ok of garage.") := by
      unfold setMaintenance
      rw [if_pos (by tauto)]
    exact ⟨herr, by simp only [applyExcept, herr]⟩
  · intro car hfind hstat
    constructor
    · intro hf hu
      subst hf
      subst hu
      unfold setMaintenance
      rw [if_neg (not_not_intro hstat)]
      simp only [hfind]
      rfl
    · intro hsome
      have hcond : (f.isSome || u.isSome) = true := by
        rcases hsome with h | h <;> simp [h]
      unfold setMaintenance
      rw [if_neg (not_not_intro hstat)]
      simp only [hfind, hcond, if_true]

/-- Store for the C9 witness: the garage car again. -/
def c9WitState : State := initialState [c9Car] [] [] 1 1

/-- Witness for C9: setting the car back to `ok` with no window in the call
clears both blackout fields. -/
theorem c9_set_maintenance_witness :
    setMaintenance c9WitState 1 "ok" none none =
      .ok ({ c9Car with
              status := "ok",
              unavailableFrom := none,
              unavailableUntil := none },
        { c9WitState with cars := c9WitState.cars.map (fun c => if c.id = 1 then
            { c9Car with
                status := "ok",
                unavailableFrom := none,
                unavailableUntil := none } else c) }) :=
  ((c9_set_maintenance c9WitState 1 "ok" none none).2 c9Car rfl (Or.inl rfl)).1 rfl rfl


/-- C10: whenever identity extraction yields no identity, whether the
`Authorization` header is absent, not a bearer token, fails verification, or
is expired, the delete route behaves identically to the anonymous path: the
ownership and role checks are skipped and any existing booking with the
requested id is deleted and returned. -/
theorem c10_anonymous_cancel (s : State) (id : Nat) (h : AuthHeader)
    (hnone : getUserFromToken h = none) :
    cancelBookingRequest s id h = cancelBookingRequest s id .missing ∧
    (∀ b, s.bookings.find? (fun x => x.id = id) = some b →
      cancelBookingRequest s id h =
        .ok (b, { s with bookings := s.bookings.filter (fun x => x.id ≠ id) })) := by
  have hreq : cancelBookingRequest s id h = cancelBooking s id none := by
    unfold cancelBookingRequest
    rw [hnone]
  constructor
  · rw [hreq]
    rfl
  · intro b hfind
    rw [hreq]
    unfold cancelBooking
    simp only [hfind]

/-- Store for the C10 witness: a booking owned by user 7. -/
def c10WitState : State :=
  ⟨[], [], [], [⟨1, 1, some 1, none, some 7, "alice", 0, 10, ""⟩], [], 2, 1⟩

/-- Witness for C10: a request with a malformed bearer token deletes user 7's
booking with no ownership check, exactly as the anonymous path does. -/
theorem c10_anonymous_cancel_witness :
    cancelBookingRequest c10WitState 1 .invalidToken =
      .ok (⟨1, 1, some 1, none, some 7, "alice", 0, 10, ""⟩,
        { c10WitState with bookings := c10WitState.bookings.filter (fun x => x.id ≠ 1) }) :=
  (c10_anonymous_cancel c10WitState 1 .invalidToken rfl).2
    ⟨1, 1, some 1, none, some 7, "alice", 0, 10, ""⟩ rfl

end Poolauto
